import Mathlib

/-!
Verification development for the LFN governance-automation repository.

The development shallowly embeds the three pieces of logic the repository
contains:

* the per-repository classification script (classify-config/index.js):
  metric collection with per-sub-query degradation, the terminal
  Inaccessible/Archive short-circuits, and the config-driven first-match
  phase selection;
* the per-organization shard loop of the workflow's "Process Repositories"
  step (a bash script run under set -euo pipefail);
* the "Build Markdown Report" step: per-file phase extraction, grouping by
  organization, and the awk/sort/sed row-ordering pipeline.

Machine floats of the JavaScript source are modelled as rationals, with
Infinity modelled as the top element of WithTop Rat (only order comparisons
against finite thresholds are ever performed on them, and those agree).
-/

namespace GovAuto

/- ## Classifier (classify-config/index.js)

A JavaScript metric value is either a number (possibly Infinity) or a
boolean.  The metrics object is a key-value list in insertion order, as a
JavaScript object is. -/

inductive MVal where
  | num (q : WithTop ℚ)
  | boolean (b : Bool)
deriving DecidableEq

abbrev Metrics := List (String × MVal)

/-- JavaScript metrics[key]: the value stored under a key, if present. -/
def getMetric (m : Metrics) (k : String) : Option MVal :=
  (m.find? (fun p => p.1 == k)).map (·.2)

/-- JavaScript numeric coercion used by the comparisons val < min / val > max
(booleans coerce to 0/1; numbers are themselves). -/
def toNum : MVal → WithTop ℚ
  | .num q => q
  | .boolean b => if b then 1 else 0

/-- JavaScript truthiness !!val (0 is false, every other number including
Infinity is true). -/
def toBool : MVal → Bool
  | .num q => decide (q ≠ 0)
  | .boolean b => b

/-- A constraint of the rule config: either an object with optional min/max
numeric bounds, or an exact boolean value. -/
inductive Constraint where
  | range (minB maxB : Option ℚ)
  | flag (b : Bool)
deriving DecidableEq

abbrev Rule := List (String × Constraint)
abbrev Catalog := List (String × Rule)

/-- One iteration of the inner loop of Dynamic Phase Selection, for a single
(metricKey, constraint) entry: an undefined metric is a non-match; a min
bound fails when val < min, a max bound when val > max; a boolean constraint
fails when it differs from !!val. -/
def constraintHolds (v? : Option MVal) (c : Constraint) : Bool :=
  match v? with
  | none => false
  | some v =>
    match c with
    | .range mn mx =>
      (match mn with
       | some m => !(decide (toNum v < (m : WithTop ℚ)))
       | none => true) &&
      (match mx with
       | some m => !(decide (toNum v > (m : WithTop ℚ)))
       | none => true)
    | .flag b => b == toBool v

/-- The inner loop of Dynamic Phase Selection: a rule matches iff every
declared (metricKey, constraint) entry holds on the metrics object. -/
def matchesRule (m : Metrics) (r : Rule) : Bool :=
  r.all fun kc => constraintHolds (getMetric m kc.1) kc.2

/-- The outer loop of Dynamic Phase Selection: return the name of the first
catalog entry whose rule matches, and the sentinel Unknown when none does. -/
def classify (m : Metrics) (catalog : Catalog) : String :=
  match catalog.find? (fun p => matchesRule m p.2) with
  | some p => p.1
  | none => "Unknown"

/-- The phase catalog of .lfn/classify-config.yml, in its declared order. -/
def catalogLFN : Catalog :=
  [("spark", [("contributors", .range none (some 2)),
              ("hasRelease", .flag false)]),
   ("incubation", [("contributors", .range (some 3) none),
                   ("hasRelease", .flag true)]),
   ("active", [("commits90d", .range (some 20) none),
               ("silentDays", .range none (some 30))]),
   ("stable", [("silentDays", .range (some 31) (some 180))]),
   ("maintenance_lts", [("ageYrs", .range (some 5) none),
                        ("silentDays", .range (some 181) (some 540)),
                        ("lastRelDays", .range none (some 730))]),
   ("archive", [("archived", .flag true)]),
   ("inaccessible", [("reachable", .flag false)])]

/- ## Metric collection (classify-config/index.js, remote queries)

The remote world the script talks to: the repos.get metadata call either
yields repository data or fails with an optional HTTP status (none models a
failure without a status field); each of the three metric sub-queries either
yields its value or fails. -/

structure RepoData where
  archived : Bool
  created_at : ℚ
  pushed_at : ℚ
deriving DecidableEq

inductive MetaResult where
  | ok (d : RepoData)
  | err (status : Option Nat)
deriving DecidableEq

structure CollectorEnv where
  now : ℚ
  repoMeta : MetaResult
  contributorsQ : Option Nat
  commitsQ : Option Nat
  releaseQ : Option ℚ
deriving DecidableEq

/-- daysAgo helper of index.js: (Date.now() - new Date(iso)) / 864e5. -/
def daysAgo (env : CollectorEnv) (iso : ℚ) : ℚ :=
  (env.now - iso) / 86400000

/-- The metrics object built by index.js once metadata succeeded and the
repository is not archived: six entries in insertion order, the three
sub-query-backed ones degraded to their defaults when the sub-query fails
(contributors 0, commits90d 0, lastRelDays Infinity with hasRelease false). -/
def buildMetrics (env : CollectorEnv) (d : RepoData) : Metrics :=
  [("ageYrs", .num ((env.now - d.created_at) / (365 * 86400000) : ℚ)),
   ("silentDays", .num (daysAgo env d.pushed_at : ℚ)),
   ("contributors", .num (match env.contributorsQ with
     | some n => (n : ℚ)
     | none => 0)),
   ("commits90d", .num (match env.commitsQ with
     | some n => (n : ℚ)
     | none => 0)),
   ("lastRelDays", match env.releaseQ with
     | some published => .num (daysAgo env published : ℚ)
     | none => .num ⊤),
   ("hasRelease", .boolean (match env.releaseQ with
     | some _ => true
     | none => false))]

/-- Contents of the repo.json file the script writes. -/
structure RepoJson where
  repo : String
  phase : String
  metrics : Option Metrics
deriving DecidableEq

/-- Observable outcome of one run of index.js: either repo.json was written
and the process exits 0, or core.setFailed was called (nonzero exit, no
repo.json). -/
inductive ScriptOut where
  | json (j : RepoJson)
  | failed
deriving DecidableEq

/-- Names of the remote calls, in the order index.js performs them. -/
def metaQueryName : String := "repos.get"
def subQueryNames : List String :=
  ["repos.listContributors", "repos.listCommits", "repos.getLatestRelease"]

/-- One run of classify-config/index.js, paired with the list of remote
queries it performed.  A metadata failure with status 404/403/401 yields the
terminal Inaccessible record; any other metadata failure is re-thrown into
the outer catch (setFailed, no repo.json).  An archived repository yields the
terminal Archive record.  Otherwise the three sub-queries run and the
catalog is consulted. -/
def runScript (slug : String) (env : CollectorEnv) (catalog : Catalog) :
    ScriptOut × List String :=
  match env.repoMeta with
  | .err st =>
    if st = some 404 ∨ st = some 403 ∨ st = some 401 then
      (.json ⟨slug, "Inaccessible", none⟩, [metaQueryName])
    else
      (.failed, [metaQueryName])
  | .ok d =>
    if d.archived then
      (.json ⟨slug, "Archive", none⟩, [metaQueryName])
    else
      let m := buildMetrics env d
      (.json ⟨slug, classify m catalog, some m⟩, metaQueryName :: subQueryNames)

/- ## Shard runner ("Process Repositories for Org" step, lfn-project-governance workflow)

This bash script runs with set -euo pipefail.  For one repository of the
organization's filtered listing we model: the true exit code of the git
clone, the exit code of the node classification script, whether the script
left a repo.json behind, and the outcome of the jq read-back of its phase
field (none models a jq failure on the file). -/

structure RepoJob where
  slug : String
  cloneExit : Nat
  nodeExit : Nat
  producesRepoJson : Bool
  phaseRead : Option String
deriving DecidableEq

/-- A result file of one repository, as written into
classification-results/<org>--<repo>.json. -/
structure ResultRow where
  phase : String
  error : Option String
deriving DecidableEq

/-- One iteration of the repository loop.  An error value is the exit code
with which the whole shard script terminates during this iteration.

Two behaviours follow the bash text, not the adjacent comments:
the clone is run as  git_output=$( (git clone ...) 2>&1 || true ), so the
following  git_exit_code=$?  reads the exit status of the assignment, which
the trailing "|| true" forces to 0 whatever the clone did; and the node
invocation is a plain command under set -e, so a nonzero node exit
terminates the shard script right there, before any result file for this
repository is written. -/
def processRepo (j : RepoJob) : Except Nat ResultRow :=
  let git_exit_code : Nat := 0
  if git_exit_code ≠ 0 then
    .ok ⟨"Checkout Failed", some "Checkout failed"⟩
  else if j.nodeExit ≠ 0 then
    .error j.nodeExit
  else if j.producesRepoJson then
    let phase_value := match j.phaseRead with
      | some p => p
      | none => "Read Error"
    if phase_value = "Read Error" then
      .ok ⟨"Read Error", some "Failed to read phase from script output"⟩
    else
      .ok ⟨phase_value, none⟩
  else
    .ok ⟨"Classification Error", some "Classification script did not produce output file"⟩

/-- The repository loop over a shard's filtered listing: empty slugs are
skipped; result rows accumulate in the partition; a terminating iteration
ends the shard, leaving the remaining repositories unprocessed and only the
rows written so far in the partition (the upload step runs with
if: always()).  The second component is the abort exit code, if any. -/
def shardRun : List RepoJob → List ResultRow × Option Nat
  | [] => ([], none)
  | j :: rest =>
    if j.slug = "" then shardRun rest
    else
      match processRepo j with
      | .error code => ([], some code)
      | .ok row =>
        let (rows, aborted) := shardRun rest
        (row :: rows, aborted)

/- ## Report building ("Build Markdown Report" step)

The report step is text processing; a line is its character list. -/

abbrev Line := List Char

def isWS (c : Char) : Bool := c = ' ' || c = '\t'

/-- The effect of awk's gsub removing leading and trailing blanks/tabs. -/
def trimWS (l : Line) : Line :=
  (((l.dropWhile isWS).reverse).dropWhile isWS).reverse

/-- awk field splitting for a single-character separator: fields are
the maximal separator-free stretches, with empty fields around adjacent,
leading and trailing separators. -/
def splitPipe : Line → List Line
  | [] => [[]]
  | c :: rest =>
    if c = '|' then [] :: splitPipe rest
    else
      match splitPipe rest with
      | f :: fs => (c :: f) :: fs
      | [] => [[c]]

/-- Field i (0-based) of a line under pipe splitting; an absent field is
empty, as it is for a sort key addressing a missing field. -/
def fld (l : Line) (i : Nat) : Line :=
  (splitPipe l).getD i []

/-- Does the pattern lead the line (an anchored regex match ^pat)? -/
def leadMatch : Line → Line → Bool
  | [], _ => true
  | _ :: _, [] => false
  | a :: as, b :: bs => a = b && leadMatch as bs

def errMarkers : List Line :=
  ["Error".toList, "Unknown".toList, "Checkout Failed".toList,
   "Classification Error".toList]

/-- The awk test $3 ~ /^Error|^Unknown|^Checkout Failed|^Classification Error/. -/
def isErrClass (l : Line) : Bool :=
  errMarkers.any fun m => leadMatch m l

/-- The awk program of the row pipeline:
gsub(/^[ \t]+|[ \t]+$/, "", $3) trims field 3 and, whenever it substituted
(that is, whenever trimming changed the field), awk rebuilds $0 from the
fields joined with OFS, a single space — the pipe separators disappear from
the record; then the record is printed with a leading 0 for an error-class
phase and 1 otherwise. -/
def awkClassify (l : Line) : Line :=
  (if isErrClass (trimWS ((splitPipe l).getD 2 [])) then '0' else '1') ::
    (if trimWS ((splitPipe l).getD 2 []) = (splitPipe l).getD 2 [] then l
     else List.intercalate [' ']
       ((splitPipe l).set 2 (trimWS ((splitPipe l).getD 2 []))))

/-- Byte comparison of two lines (C collation). -/
def cmpL : Line → Line → Ordering
  | [], [] => .eq
  | [], _ :: _ => .lt
  | _ :: _, [] => .gt
  | a :: as, b :: bs =>
    if a < b then .lt else if b < a then .gt else cmpL as bs

/-- The comparison performed by  sort -t'|' -k1,1 -k2,2 -k3,3 : the three
field keys in order, then the last-resort comparison of the whole lines. -/
def keyCmp (a b : Line) : Ordering :=
  (cmpL (fld a 0) (fld b 0)).then
    ((cmpL (fld a 1) (fld b 1)).then
      ((cmpL (fld a 2) (fld b 2)).then (cmpL a b)))

def lineLe (a b : Line) : Bool := keyCmp a b ≠ .gt

def insertRow (x : Line) : List Line → List Line
  | [] => [x]
  | y :: ys => if lineLe x y then x :: y :: ys else y :: insertRow x ys

/-- The sort of the row pipeline.  Because the comparison ends with a
last-resort whole-line comparison, lines comparing equal are identical, so
the sorted sequence is unique and any sorting algorithm realizes it. -/
def sortRows : List Line → List Line
  | [] => []
  | x :: xs => insertRow x (sortRows xs)

/-- The full row pipeline of one organization's section:
awk classification, sort -t'|' -k1,1 -k2,2 -k3,3, and sed 's/^.//' dropping
the class digit again. -/
def reportSortPipeline (rows : List Line) : List Line :=
  (sortRows (rows.map awkClassify)).map (List.drop 1)

/-- The link cell of a table row: " [$repo](https://github.com/$project/$repo) ". -/
def linkText (project repo : Line) : Line :=
  " [".toList ++ repo ++ "](https://github.com/".toList ++ project ++
    "/".toList ++ repo ++ ") ".toList

/-- row_line="| [$repo](https://github.com/$project/$repo) | $phase |". -/
def rowLine (project repo phase : Line) : Line :=
  ['|'] ++ linkText project repo ++ ['|'] ++ ([' '] ++ phase ++ [' ']) ++ ['|']

/-- ${stem//--/\/}: every occurrence of -- replaced by a slash. -/
def replDD : Line → Line
  | '-' :: '-' :: rest => '/' :: replDD rest
  | c :: rest => c :: replDD rest
  | [] => []

/-- project=${full%%/*}: the prefix before the first slash. -/
def projectOf (stem : Line) : Line :=
  (replDD stem).takeWhile (fun c => !(c = '/'))

/-- repo=${full#*/}: everything after the first slash, or the whole string
when it has none. -/
def repoOf (stem : Line) : Line :=
  let full := replDD stem
  if '/' ∈ full then (full.dropWhile (fun c => !(c = '/'))).drop 1 else full

/-- One downloaded result file, abstracted at the JSON level: the artifact
file name without its .json extension, the .phase field when present as a
string (none models an absent or null phase, for which jq's // default
applies), and likewise the .error field. -/
structure ArtifactFile where
  stem : Line
  phaseVal : Option Line
  errorVal : Option Line
deriving DecidableEq

/-- Phase extraction for one file: jq -r '.phase // "Unknown"', then the
fallback when the result is empty or the literal text null: use
"Error: $error_msg" when an error field is present and nonempty, else
"Unknown (Parse Error)". -/
def filePhase (f : ArtifactFile) : Line :=
  let phase := f.phaseVal.getD "Unknown".toList
  if phase = [] ∨ phase = "null".toList then
    let error_msg := f.errorVal.getD []
    if error_msg = [] then "Unknown (Parse Error)".toList
    else "Error: ".toList ++ error_msg
  else phase

/-- rows_data[$project] accumulation: append the row to the project's entry,
creating the entry at the end on first sight of the project. -/
def addRow (groups : List (Line × List Line)) (proj row : Line) :
    List (Line × List Line) :=
  match groups with
  | [] => [(proj, [row])]
  | (p, rs) :: rest =>
    if p = proj then (p, rs ++ [row]) :: rest
    else (p, rs) :: addRow rest proj row

/-- The scan over all downloaded files: per file, derive project and repo
from the artifact stem, extract the phase, and append the markdown row to
that project's bucket. -/
def buildRows (files : List ArtifactFile) : List (Line × List Line) :=
  files.foldl
    (fun g f =>
      addRow g (projectOf f.stem)
        (rowLine (projectOf f.stem) (repoOf f.stem) (filePhase f)))
    []

def projLe (a b : Line × List Line) : Bool := cmpL a.1 b.1 ≠ .gt

def insertProj (x : Line × List Line) :
    List (Line × List Line) → List (Line × List Line)
  | [] => [x]
  | y :: ys => if projLe x y then x :: y :: ys else y :: insertProj x ys

/-- printf '%s\n' of the project keys piped through sort: the organization
sections are rendered in byte-lexicographic key order. -/
def sortProjs : List (Line × List Line) → List (Line × List Line)
  | [] => []
  | x :: xs => insertProj x (sortProjs xs)

/-- One organization's section: a blank line, the heading, the two table
header lines, then the sorted rows. -/
def sectionOf (g : Line × List Line) : List Line :=
  ([] : Line) :: ("## ".toList ++ g.1) ::
    "| Repository | Phase |".toList :: "|------------|-------|".toList ::
      reportSortPipeline g.2

/-- The whole summary.md as a list of lines.  The artifacts argument is none
when the artifacts directory is missing or empty.  The date string is the
output of date -u at rendering time and the run reference the server URL of
the current workflow run. -/
def buildReport (dateStr runRef : Line) (artifacts : Option (List ArtifactFile)) :
    List Line :=
  match artifacts with
  | none =>
    ["# LFN Project Lifecycle Summary".toList, ([] : Line),
     "*No artifacts found. Check the classify job logs for errors (e.g., artifact upload failures).*".toList]
  | some files =>
    let groups := buildRows files
    if groups = [] then
      ["# LFN Project Lifecycle Summary".toList, ([] : Line),
       "*No project data processed successfully. Check the classify job logs and artifact contents for errors.*".toList]
    else
      "# LFN Project Lifecycle Summary".toList :: ([] : Line) ::
        ("Generated on: ".toList ++ dateStr) ::
          ("Workflow Run: <".toList ++ runRef ++ ">".toList) :: ([] : Line) ::
            ((sortProjs groups).map sectionOf).flatten

/-- A line free of the pipe separator. -/
def noPipe (l : Line) : Bool := l.all fun c => !(c = '|')

/-- Does the line begin with the given character? -/
def headIs (c : Char) (l : Line) : Bool :=
  match l with
  | [] => false
  | d :: _ => d = c

/- ## General lemmas about first-match selection -/

lemma find?_append_skip {α : Type} (p : α → Bool) (l₁ l₂ : List α)
    (h : ∀ a ∈ l₁, p a = false) :
    (l₁ ++ l₂).find? p = l₂.find? p := by
  induction l₁ with
  | nil => rfl
  | cons a as ih =>
    have ha : ¬ p a = true := by simp [h a (List.mem_cons_self a as)]
    rw [List.cons_append, List.find?_cons_of_neg _ ha]
    exact ih fun x hx => h x (List.mem_cons_of_mem _ hx)

lemma classify_append_first (m : Metrics) (pre : Catalog) (n : String) (r : Rule)
    (post : Catalog) (hpre : ∀ p ∈ pre, matchesRule m p.2 = false)
    (hr : matchesRule m r = true) :
    classify m (pre ++ (n, r) :: post) = n := by
  unfold classify
  rw [find?_append_skip _ pre _ hpre,
    @List.find?_cons_of_pos _ (fun p => matchesRule m p.2) (n, r) post
      (by simpa using hr)]

lemma classify_eq_name (m : Metrics) (cat : Catalog) (n : String)
    (hcl : classify m cat = n) (hn : n ≠ "Unknown") :
    ∃ r, (n, r) ∈ cat ∧ matchesRule m r = true := by
  unfold classify at hcl
  cases hf : cat.find? (fun p => matchesRule m p.2) with
  | none => rw [hf] at hcl; simp at hcl; exact absurd hcl.symm hn
  | some q =>
    rw [hf] at hcl
    simp at hcl
    refine ⟨q.2, ?_, by simpa using List.find?_some hf⟩
    have hq : q = (n, q.2) := by
      cases q with
      | mk a b => simpa using hcl
    exact hq ▸ List.mem_of_find?_eq_some hf

lemma getMetric_buildMetrics_archived (env : CollectorEnv) (d : RepoData) :
    getMetric (buildMetrics env d) "archived" = none := rfl

lemma getMetric_buildMetrics_reachable (env : CollectorEnv) (d : RepoData) :
    getMetric (buildMetrics env d) "reachable" = none := rfl

/- ## Lemmas about the byte comparison and the sort key -/

lemma then_ne_gt (o p : Ordering) :
    o.then p ≠ .gt ↔ o = .lt ∨ (o = .eq ∧ p ≠ .gt) := by
  cases o <;> simp [Ordering.then]

lemma then_swap (o p : Ordering) : (o.then p).swap = o.swap.then p.swap := by
  cases o <;> rfl

lemma cmpL_self (a : Line) : cmpL a a = .eq := by
  induction a with
  | nil => rfl
  | cons c cs ih => simp [cmpL, lt_irrefl, ih]

lemma cmpL_eq : ∀ a b : Line, cmpL a b = .eq → a = b := by
  intro a
  induction a with
  | nil => intro b h; cases b with
    | nil => rfl
    | cons d ds => simp [cmpL] at h
  | cons c cs ih =>
    intro b h
    cases b with
    | nil => simp [cmpL] at h
    | cons d ds =>
      rw [cmpL] at h
      split at h
      · exact absurd h (by simp)
      · split at h
        · exact absurd h (by simp)
        · have hcd : c = d := le_antisymm (not_lt.mp (by assumption)) (not_lt.mp (by assumption))
          rw [hcd, ih ds h]

lemma cmpL_swap : ∀ a b : Line, (cmpL a b).swap = cmpL b a := by
  intro a
  induction a with
  | nil => intro b; cases b <;> rfl
  | cons c cs ih =>
    intro b
    cases b with
    | nil => rfl
    | cons d ds =>
      rw [cmpL, cmpL]
      rcases lt_trichotomy c d with h | h | h
      · simp [h, asymm h, Ordering.swap]
      · subst h
        simpa [lt_irrefl] using ih ds
      · simp [h, asymm h, Ordering.swap]

lemma cmpL_lt_trans : ∀ a b c : Line, cmpL a b = .lt → cmpL b c = .lt → cmpL a c = .lt := by
  intro a
  induction a with
  | nil =>
    intro b c hab hbc
    cases b with
    | nil => simp [cmpL] at hab
    | cons y ys =>
      cases c with
      | nil => simp [cmpL] at hbc
      | cons z zs => rfl
  | cons x xs ih =>
    intro b c hab hbc
    cases b with
    | nil => simp [cmpL] at hab
    | cons y ys =>
      cases c with
      | nil => simp [cmpL] at hbc
      | cons z zs =>
        rw [cmpL] at hab hbc ⊢
        by_cases hxy : x < y
        · by_cases hyz : y < z
          · rw [if_pos (lt_trans hxy hyz)]
          · split at hbc
            · exact absurd (by assumption) hyz
            · split at hbc
              · exact absurd hbc (by simp)
              · have : y = z := le_antisymm (not_lt.mp (by assumption)) (not_lt.mp hyz)
                rw [if_pos (this ▸ hxy)]
        · split at hab
          · exact absurd (by assumption) hxy
          · split at hab
            · exact absurd hab (by simp)
            · have hxey : x = y := le_antisymm (not_lt.mp (by assumption)) (not_lt.mp hxy)
              subst hxey
              by_cases hxz : x < z
              · rw [if_pos hxz]
              · split at hbc
                · exact absurd (by assumption) hxz
                · split at hbc
                  · exact absurd hbc (by simp)
                  · rw [if_neg hxz, if_neg (by assumption)]
                    exact ih ys zs hab hbc

lemma cmpL_le_trans : ∀ a b d : Line, cmpL a b ≠ .gt → cmpL b d ≠ .gt → cmpL a d ≠ .gt := by
  intro a b d h1 h2
  cases hab : cmpL a b with
  | gt => exact absurd hab h1
  | eq => rw [cmpL_eq a b hab]; exact h2
  | lt =>
    cases hbd : cmpL b d with
    | gt => exact absurd hbd h2
    | eq => rw [← cmpL_eq b d hbd, hab]; simp
    | lt => rw [cmpL_lt_trans a b d hab hbd]; simp

lemma then_key_trans (k : Line → Line) (c : Line → Line → Ordering)
    (hc : ∀ a b d, c a b ≠ .gt → c b d ≠ .gt → c a d ≠ .gt) :
    ∀ a b d, (cmpL (k a) (k b)).then (c a b) ≠ .gt →
      (cmpL (k b) (k d)).then (c b d) ≠ .gt →
      (cmpL (k a) (k d)).then (c a d) ≠ .gt := by
  intro a b d h1 h2
  rw [then_ne_gt] at h1 h2 ⊢
  rcases h1 with h1 | ⟨h1e, h1c⟩ <;> rcases h2 with h2 | ⟨h2e, h2c⟩
  · exact Or.inl (cmpL_lt_trans _ _ _ h1 h2)
  · exact Or.inl (by rw [← cmpL_eq _ _ h2e]; exact h1)
  · exact Or.inl (by rw [cmpL_eq _ _ h1e]; exact h2)
  · exact Or.inr ⟨by rw [cmpL_eq _ _ h1e]; exact h2e, hc a b d h1c h2c⟩

lemma keyCmp_swap (a b : Line) : (keyCmp a b).swap = keyCmp b a := by
  unfold keyCmp
  rw [then_swap, then_swap, then_swap, cmpL_swap, cmpL_swap, cmpL_swap, cmpL_swap]

lemma lineLe_total (a b : Line) : lineLe a b = true ∨ lineLe b a = true := by
  by_cases h : keyCmp a b = .gt
  · right
    have : keyCmp b a = .lt := by rw [← keyCmp_swap a b, h]; rfl
    simp [lineLe, this]
  · left
    simp [lineLe, h]

lemma lineLe_trans (a b c : Line) (h1 : lineLe a b = true) (h2 : lineLe b c = true) :
    lineLe a c = true := by
  simp only [lineLe, ne_eq, decide_eq_true_eq] at h1 h2 ⊢
  have t0 : ∀ x y z : Line, cmpL x y ≠ .gt → cmpL y z ≠ .gt → cmpL x z ≠ .gt :=
    cmpL_le_trans
  have t1 := then_key_trans (fun l => fld l 2) (fun x y => cmpL x y) t0
  have t2 := then_key_trans (fun l => fld l 1)
    (fun x y => (cmpL (fld x 2) (fld y 2)).then (cmpL x y)) t1
  have t3 := then_key_trans (fun l => fld l 0)
    (fun x y => (cmpL (fld x 1) (fld y 1)).then
      ((cmpL (fld x 2) (fld y 2)).then (cmpL x y))) t2
  exact t3 a b c h1 h2

/- ## Lemmas about the insertion sort realizing the pipeline's sort -/

lemma insertRow_perm (x : Line) (l : List Line) :
    (insertRow x l).Perm (x :: l) := by
  induction l with
  | nil => rfl
  | cons y ys ih =>
    rw [insertRow]
    split
    · rfl
    · exact ((ih.cons y).trans (List.Perm.swap x y ys))

lemma sortRows_perm (l : List Line) : (sortRows l).Perm l := by
  induction l with
  | nil => rfl
  | cons x xs ih => exact (insertRow_perm x (sortRows xs)).trans (ih.cons x)

lemma pairwise_insertRow (x : Line) (l : List Line)
    (h : l.Pairwise fun a b => lineLe a b = true) :
    (insertRow x l).Pairwise fun a b => lineLe a b = true := by
  induction l with
  | nil => simp [insertRow]
  | cons y ys ih =>
    rw [List.pairwise_cons] at h
    rw [insertRow]
    split
    · rw [List.pairwise_cons]
      refine ⟨?_, List.pairwise_cons.mpr h⟩
      intro z hz
      rcases List.mem_cons.mp hz with rfl | hz
      · assumption
      · exact lineLe_trans x y z (by assumption) (h.1 z hz)
    · rw [List.pairwise_cons]
      refine ⟨?_, ih h.2⟩
      intro z hz
      have hz' := (insertRow_perm x ys).mem_iff.mp hz
      rcases List.mem_cons.mp hz' with rfl | hz'
      · rcases lineLe_total y z with hyx | hyx
        · exact hyx
        · exact absurd hyx (by assumption)
      · exact h.1 z hz'

lemma pairwise_sortRows (l : List Line) :
    (sortRows l).Pairwise fun a b => lineLe a b = true := by
  induction l with
  | nil => simp [sortRows]
  | cons x xs ih => exact pairwise_insertRow x (sortRows xs) ih

/- ## Lemmas about field splitting, trimming and the row lines -/

lemma splitPipe_ne_nil (l : Line) : splitPipe l ≠ [] := by
  cases l with
  | nil => simp [splitPipe]
  | cons c cs =>
    rw [splitPipe]
    split
    · simp
    · cases h : splitPipe cs <;> simp

lemma splitPipe_noPipe (l : Line) (h : noPipe l = true) : splitPipe l = [l] := by
  induction l with
  | nil => rfl
  | cons c cs ih =>
    rw [noPipe, List.all_cons, Bool.and_eq_true] at h
    have hc : ¬ c = '|' := by simpa using h.1
    rw [splitPipe, if_neg hc, ih h.2]

lemma splitPipe_append (a b : Line) (h : noPipe a = true) :
    ∀ f fs, splitPipe b = f :: fs → splitPipe (a ++ b) = (a ++ f) :: fs := by
  induction a with
  | nil => intro f fs hb; simpa using hb
  | cons c cs ih =>
    intro f fs hb
    rw [noPipe, List.all_cons, Bool.and_eq_true] at h
    have hc : ¬ c = '|' := by simpa using h.1
    rw [List.cons_append, splitPipe, if_neg hc, ih h.2 f fs hb]
    rfl

lemma fld0_cons (c : Char) (l : Line) (hc : ¬ c = '|') :
    ∃ t, fld (c :: l) 0 = c :: t := by
  unfold fld
  rw [splitPipe, if_neg hc]
  cases h : splitPipe l with
  | nil => exact absurd h (splitPipe_ne_nil l)
  | cons f fs => exact ⟨f, by simp [h]⟩

lemma length_dropWhile_le (p : Char → Bool) (l : Line) :
    (l.dropWhile p).length ≤ l.length := by
  induction l with
  | nil => simp
  | cons c cs ih =>
    rw [List.dropWhile]
    split
    · exact le_trans ih (Nat.le_succ _)
    · simp

lemma trimWS_length_le (l : Line) : (trimWS l).length ≤ l.length := by
  unfold trimWS
  rw [List.length_reverse]
  calc ((l.dropWhile isWS).reverse.dropWhile isWS).length
      ≤ (l.dropWhile isWS).reverse.length := length_dropWhile_le _ _
    _ = (l.dropWhile isWS).length := List.length_reverse _
    _ ≤ l.length := length_dropWhile_le _ _

lemma trimWS_append_sp (l : Line) : trimWS (l ++ [' ']) = trimWS l := by
  unfold trimWS
  rw [List.dropWhile_append]
  split
  · next hemp =>
    rw [List.isEmpty_iff] at hemp
    rw [hemp]
    rfl
  · next hemp =>
    rw [List.reverse_append]
    have : List.dropWhile isWS ([' '].reverse ++ (l.dropWhile isWS).reverse) =
        List.dropWhile isWS (l.dropWhile isWS).reverse := by
      simp [List.dropWhile, isWS]
    rw [this]

lemma trimWS_pad (l : Line) : trimWS ([' '] ++ l ++ [' ']) = trimWS l := by
  have h1 : ([' '] ++ l ++ [' ']) = ' ' :: (l ++ [' ']) := by simp
  rw [h1]
  have h2 : trimWS (' ' :: (l ++ [' '])) = trimWS (l ++ [' ']) := by
    unfold trimWS
    simp [List.dropWhile, isWS]
  rw [h2, trimWS_append_sp]

lemma splitPipe_rowLine (project repo phase : Line)
    (hp : noPipe project = true) (hr : noPipe repo = true)
    (hf : noPipe phase = true) :
    splitPipe (rowLine project repo phase) =
      [[], linkText project repo, [' '] ++ phase ++ [' '], []] := by
  have hlink : noPipe (linkText project repo) = true := by
    unfold linkText noPipe
    simp only [List.all_append]
    rw [noPipe] at hp hr
    simp [hp, hr]
  have hmid : noPipe ([' '] ++ phase ++ [' ']) = true := by
    unfold noPipe
    simp only [List.all_append]
    rw [noPipe] at hf
    simp [hf]
  have hrow : rowLine project repo phase =
      '|' :: (linkText project repo ++
        ('|' :: (([' '] ++ phase ++ [' ']) ++ ['|']))) := by
    unfold rowLine
    simp
  rw [hrow]
  have s1 : splitPipe ((([' '] ++ phase ++ [' '])) ++ ['|']) =
      ([' '] ++ phase ++ [' ']) :: [[]] := by
    have : splitPipe ['|'] = [] :: [[]] := rfl
    have h := splitPipe_append ([' '] ++ phase ++ [' ']) ['|'] hmid [] [[]] this
    simpa using h
  have s2 : splitPipe ('|' :: (([' '] ++ phase ++ [' ']) ++ ['|'])) =
      [] :: ([' '] ++ phase ++ [' ']) :: [[]] := by
    rw [splitPipe, if_pos rfl, s1]
  have s3 : splitPipe (linkText project repo ++
      ('|' :: (([' '] ++ phase ++ [' ']) ++ ['|']))) =
      linkText project repo :: ([' '] ++ phase ++ [' ']) :: [[]] := by
    have h := splitPipe_append (linkText project repo) _ hlink []
      (([' '] ++ phase ++ [' ']) :: [[]]) s2
    simpa using h
  rw [splitPipe, if_pos rfl, s3]

lemma awkClassify_rowLine (project repo phase : Line)
    (hp : noPipe project = true) (hr : noPipe repo = true)
    (hf : noPipe phase = true) :
    awkClassify (rowLine project repo phase) =
      (if isErrClass (trimWS phase) then '0' else '1') ::
        List.intercalate [' ']
          [[], linkText project repo, trimWS phase, []] := by
  unfold awkClassify
  rw [splitPipe_rowLine project repo phase hp hr hf]
  have hgd : List.getD [[], linkText project repo, [' '] ++ phase ++ [' '], []] 2
      ([] : Line) = [' '] ++ phase ++ [' '] := rfl
  rw [hgd, trimWS_pad]
  have hne : ¬ trimWS phase = [' '] ++ phase ++ [' '] := by
    intro h
    have h1 := trimWS_length_le phase
    have h2 : (trimWS phase).length = phase.length + 2 := by
      rw [h]; simp
    omega
  rw [if_neg hne]
  rfl

lemma awkClassify_head (l : Line) :
    headIs '0' (awkClassify l) = true ∨ headIs '1' (awkClassify l) = true := by
  unfold awkClassify
  by_cases h : isErrClass (trimWS ((splitPipe l).getD 2 [])) = true
  · left; rw [if_pos h]; rfl
  · right; rw [if_neg h]; rfl

lemma headIs_one_zero_not_le (a b : Line)
    (ha : headIs '1' a = true) (hb : headIs '0' b = true) :
    lineLe a b = false := by
  cases a with
  | nil => simp [headIs] at ha
  | cons x as =>
    cases b with
    | nil => simp [headIs] at hb
    | cons y bs =>
      have hx : x = '1' := by simpa [headIs] using ha
      have hy : y = '0' := by simpa [headIs] using hb
      subst hx; subst hy
      obtain ⟨t, ht⟩ := fld0_cons '1' as (by decide)
      obtain ⟨u, hu⟩ := fld0_cons '0' bs (by decide)
      have hcmp : cmpL (fld ('1' :: as) 0) (fld ('0' :: bs) 0) = .gt := by
        rw [ht, hu, cmpL, if_neg (by decide), if_pos (by decide)]
      simp only [lineLe, keyCmp, hcmp]
      rfl

lemma heads_digit_filter (S : List Line)
    (hS : S.Pairwise fun a b => lineLe a b = true)
    (hd : ∀ l ∈ S, headIs '0' l = true ∨ headIs '1' l = true) :
    S = S.filter (headIs '0') ++ S.filter (headIs '1') := by
  induction S with
  | nil => rfl
  | cons x xs ih =>
    rw [List.pairwise_cons] at hS
    rcases hd x (List.mem_cons_self x xs) with h0 | h1
    · have h1f : headIs '1' x = false := by
        cases x with
        | nil => simp [headIs] at h0
        | cons c cs =>
          have : c = '0' := by simpa [headIs] using h0
          subst this; simp [headIs]
      rw [List.filter_cons_of_pos h0, List.filter_cons_of_neg (by simp [h1f])]
      rw [List.cons_append]
      congr 1
      exact ih hS.2 fun l hl => hd l (List.mem_cons_of_mem x hl)
    · have hall : ∀ z ∈ x :: xs, headIs '1' z = true := by
        intro z hz
        rcases List.mem_cons.mp hz with rfl | hz
        · exact h1
        · rcases hd z (List.mem_cons_of_mem x hz) with hz0 | hz1
          · have := headIs_one_zero_not_le x z h1 hz0
            have h' := hS.1 z hz
            rw [this] at h'
            exact absurd h' (by simp)
          · exact hz1
      have hf0 : (x :: xs).filter (headIs '0') = [] := by
        rw [List.filter_eq_nil_iff]
        intro a ha
        have h1a := hall a ha
        cases a with
        | nil => simp [headIs] at h1a
        | cons c cs =>
          have : c = '1' := by simpa [headIs] using h1a
          subst this; simp [headIs]
      have hf1 : (x :: xs).filter (headIs '1') = x :: xs :=
        List.filter_eq_self.mpr hall
      rw [hf0, hf1]
      rfl

/- ## Claims about the classification script -/

/-- C5: when the repository-level metadata query fails with status 404 (not
found), 403 (forbidden) or 401 (unauthorized), the script immediately writes
the terminal result record with phase Inaccessible, and its query log shows
that none of the three metric sub-queries (contributors, commits, latest
release) was attempted. -/
theorem c5_inaccessible_short_circuit (slug : String) (cat : Catalog)
    (env : CollectorEnv) (s : Nat) (hm : env.repoMeta = .err (some s))
    (hs : s = 404 ∨ s = 403 ∨ s = 401) :
    runScript slug env cat =
      (.json ⟨slug, "Inaccessible", none⟩, [metaQueryName]) ∧
    ∀ q ∈ (runScript slug env cat).2, q ∉ subQueryNames := by
  have h1 : runScript slug env cat =
      (.json ⟨slug, "Inaccessible", none⟩, [metaQueryName]) := by
    unfold runScript
    rw [hm]
    rcases hs with rfl | rfl | rfl <;> simp
  refine ⟨h1, ?_⟩
  rw [h1]
  intro q hq
  simp only [List.mem_singleton] at hq
  subst hq
  decide

/-- C5 witness: a concrete environment whose metadata query fails with 404. -/
theorem c5_witness :
    runScript "octo/hello" ⟨0, .err (some 404), some 1, some 1, some 0⟩ catalogLFN =
      (.json ⟨"octo/hello", "Inaccessible", none⟩, [metaQueryName]) ∧
    ∀ q ∈ (runScript "octo/hello" ⟨0, .err (some 404), some 1, some 1, some 0⟩ catalogLFN).2,
      q ∉ subQueryNames :=
  c5_inaccessible_short_circuit "octo/hello" catalogLFN
    ⟨0, .err (some 404), some 1, some 1, some 0⟩ 404 rfl (Or.inl rfl)

/-- C6: when the metadata query succeeds and the repository is not archived,
a failing metric sub-query degrades to its documented default (contributors
to 0, commits90d to 0, lastRelDays to Infinity together with hasRelease
false), the vector still carries all six fields, and the script proceeds to
classify that vector and write it out rather than failing. -/
theorem c6_subquery_degradation (slug : String) (cat : Catalog)
    (env : CollectorEnv) (d : RepoData) (hm : env.repoMeta = .ok d)
    (ha : d.archived = false) :
    (env.contributorsQ = none →
      getMetric (buildMetrics env d) "contributors" = some (.num 0)) ∧
    (env.commitsQ = none →
      getMetric (buildMetrics env d) "commits90d" = some (.num 0)) ∧
    (env.releaseQ = none →
      getMetric (buildMetrics env d) "lastRelDays" = some (.num ⊤) ∧
      getMetric (buildMetrics env d) "hasRelease" = some (.boolean false)) ∧
    (buildMetrics env d).map Prod.fst =
      ["ageYrs", "silentDays", "contributors", "commits90d", "lastRelDays",
       "hasRelease"] ∧
    runScript slug env cat =
      (.json ⟨slug, classify (buildMetrics env d) cat, some (buildMetrics env d)⟩,
       metaQueryName :: subQueryNames) := by
  refine ⟨?_, ?_, ?_, rfl, ?_⟩
  · intro h; simp [buildMetrics, getMetric, h]
  · intro h; simp [buildMetrics, getMetric, h]
  · intro h; constructor <;> simp [buildMetrics, getMetric, h]
  · unfold runScript
    rw [hm]
    simp [ha]

/-- C6 witness: metadata succeeds, not archived, all three sub-queries fail. -/
theorem c6_witness :
    (((⟨0, .ok ⟨false, 0, 0⟩, none, none, none⟩ : CollectorEnv).contributorsQ = none →
      getMetric (buildMetrics ⟨0, .ok ⟨false, 0, 0⟩, none, none, none⟩ ⟨false, 0, 0⟩)
        "contributors" = some (.num 0)) ∧
     ((⟨0, .ok ⟨false, 0, 0⟩, none, none, none⟩ : CollectorEnv).commitsQ = none →
      getMetric (buildMetrics ⟨0, .ok ⟨false, 0, 0⟩, none, none, none⟩ ⟨false, 0, 0⟩)
        "commits90d" = some (.num 0)) ∧
     ((⟨0, .ok ⟨false, 0, 0⟩, none, none, none⟩ : CollectorEnv).releaseQ = none →
      getMetric (buildMetrics ⟨0, .ok ⟨false, 0, 0⟩, none, none, none⟩ ⟨false, 0, 0⟩)
        "lastRelDays" = some (.num ⊤) ∧
      getMetric (buildMetrics ⟨0, .ok ⟨false, 0, 0⟩, none, none, none⟩ ⟨false, 0, 0⟩)
        "hasRelease" = some (.boolean false)) ∧
     (buildMetrics ⟨0, .ok ⟨false, 0, 0⟩, none, none, none⟩ ⟨false, 0, 0⟩).map Prod.fst =
      ["ageYrs", "silentDays", "contributors", "commits90d", "lastRelDays",
       "hasRelease"] ∧
     runScript "octo/hello" ⟨0, .ok ⟨false, 0, 0⟩, none, none, none⟩ catalogLFN =
      (.json ⟨"octo/hello",
        classify (buildMetrics ⟨0, .ok ⟨false, 0, 0⟩, none, none, none⟩ ⟨false, 0, 0⟩)
          catalogLFN,
        some (buildMetrics ⟨0, .ok ⟨false, 0, 0⟩, none, none, none⟩ ⟨false, 0, 0⟩)⟩,
       metaQueryName :: subQueryNames)) :=
  c6_subquery_degradation "octo/hello" catalogLFN
    ⟨0, .ok ⟨false, 0, 0⟩, none, none, none⟩ ⟨false, 0, 0⟩ rfl rfl

/-- C7: the classifier returns the name of the first catalog entry whose
constraints all hold (any entries before it fail, any entries after it —
matching or not — are ignored), and min and max bounds are inclusive: a
value equal to the bound satisfies the constraint. -/
theorem c7_first_match_inclusive_bounds :
    (∀ (m : Metrics) (pre : Catalog) (n₁ : String) (r₁ : Rule) (mid : Catalog)
        (n₂ : String) (r₂ : Rule) (post : Catalog),
        (∀ p ∈ pre, matchesRule m p.2 = false) → matchesRule m r₁ = true →
        classify m (pre ++ (n₁, r₁) :: (mid ++ (n₂, r₂) :: post)) = n₁) ∧
    (∀ c : ℚ,
      constraintHolds (some (.num (c : WithTop ℚ))) (.range (some c) none) = true ∧
      constraintHolds (some (.num (c : WithTop ℚ))) (.range none (some c)) = true) := by
  constructor
  · intro m pre n₁ r₁ mid n₂ r₂ post hpre hr
    exact classify_append_first m pre n₁ r₁ _ hpre hr
  · intro c
    constructor <;> simp [constraintHolds, toNum, lt_irrefl]

/-- C7 witness: the spark/incubation scenario with a later rule also able to
match, and min 20 / max 30 bounds met with equality. -/
theorem c7_witness :
    classify [("contributors", .num 1), ("hasRelease", .boolean false)]
      ([("incubation", [("contributors", .range (some 3) none)])] ++
        ("spark", [("contributors", .range none (some 2)),
                   ("hasRelease", .flag false)]) ::
          ([] ++ ("fallback", ([] : Rule)) :: [])) = "spark" ∧
    constraintHolds (some (.num ((20 : ℚ) : WithTop ℚ)))
      (.range (some 20) none) = true ∧
    constraintHolds (some (.num ((30 : ℚ) : WithTop ℚ)))
      (.range none (some 30)) = true :=
  ⟨c7_first_match_inclusive_bounds.1
      [("contributors", .num 1), ("hasRelease", .boolean false)]
      [("incubation", [("contributors", .range (some 3) none)])] "spark"
      [("contributors", .range none (some 2)), ("hasRelease", .flag false)]
      [] "fallback" ([] : Rule) [] (by decide) (by decide),
   (c7_first_match_inclusive_bounds.2 20).1,
   (c7_first_match_inclusive_bounds.2 30).2⟩

/-- C8: a rule that declares a constraint on a metric key absent from the
vector never matches — the undefined lookup makes the rule fail rather than
the constraint being skipped; in particular a rule requiring hasRelease true
cannot match a vector lacking hasRelease. -/
theorem c8_missing_metric_nonmatch :
    (∀ (m : Metrics) (r : Rule) (k : String) (c : Constraint),
        (k, c) ∈ r → getMetric m k = none → matchesRule m r = false) ∧
    (∀ (m : Metrics) (r : Rule), ("hasRelease", Constraint.flag true) ∈ r →
        getMetric m "hasRelease" = none → matchesRule m r = false) := by
  have h1 : ∀ (m : Metrics) (r : Rule) (k : String) (c : Constraint),
      (k, c) ∈ r → getMetric m k = none → matchesRule m r = false := by
    intro m r k c hmem hnone
    rw [matchesRule, List.all_eq_false]
    exact ⟨(k, c), hmem, by simp [constraintHolds, hnone]⟩
  exact ⟨h1, fun m r hmem hnone => h1 m r "hasRelease" (.flag true) hmem hnone⟩

/-- C8 witness: a hasRelease true rule against the empty vector. -/
theorem c8_witness :
    matchesRule ([] : Metrics) [("hasRelease", Constraint.flag true)] = false ∧
    matchesRule ([("contributors", MVal.num 5)] : Metrics)
      [("contributors", .range (some 3) none), ("hasRelease", Constraint.flag true)] =
        false :=
  ⟨c8_missing_metric_nonmatch.2 [] [("hasRelease", Constraint.flag true)]
      (by decide) rfl,
   c8_missing_metric_nonmatch.2 [("contributors", MVal.num 5)]
      [("contributors", .range (some 3) none), ("hasRelease", Constraint.flag true)]
      (by decide) rfl⟩

/-- C9: every vector that reaches the catalog loop carries exactly the six
fields ageYrs, silentDays, contributors, commits90d, lastRelDays, hasRelease
and never an archived or reachable field, so the configured archive
(archived true) and inaccessible (reachable false) catalog entries can never
be selected by the loop: those phases arise only from the pre-catalog
short-circuits. -/
theorem c9_vector_schema_terminal_phases (env : CollectorEnv) (d : RepoData) :
    (buildMetrics env d).map Prod.fst =
      ["ageYrs", "silentDays", "contributors", "commits90d", "lastRelDays",
       "hasRelease"] ∧
    getMetric (buildMetrics env d) "archived" = none ∧
    getMetric (buildMetrics env d) "reachable" = none ∧
    matchesRule (buildMetrics env d) [("archived", Constraint.flag true)] = false ∧
    matchesRule (buildMetrics env d) [("reachable", Constraint.flag false)] = false ∧
    classify (buildMetrics env d) catalogLFN ≠ "archive" ∧
    classify (buildMetrics env d) catalogLFN ≠ "inaccessible" := by
  have harch : matchesRule (buildMetrics env d) [("archived", Constraint.flag true)] = false := by
    simp [matchesRule, constraintHolds, getMetric_buildMetrics_archived]
  have hreach : matchesRule (buildMetrics env d) [("reachable", Constraint.flag false)] = false := by
    simp [matchesRule, constraintHolds, getMetric_buildMetrics_reachable]
  refine ⟨rfl, rfl, rfl, harch, hreach, ?_, ?_⟩
  · intro h
    obtain ⟨r, hmem, hmatch⟩ := classify_eq_name _ _ _ h (by decide)
    simp only [catalogLFN, List.mem_cons, List.not_mem_nil, or_false,
      Prod.mk.injEq] at hmem
    rcases hmem with ⟨h1, _⟩ | ⟨h1, _⟩ | ⟨h1, _⟩ | ⟨h1, _⟩ | ⟨h1, _⟩ | ⟨_, h2⟩ | ⟨h1, _⟩
    · exact absurd h1 (by decide)
    · exact absurd h1 (by decide)
    · exact absurd h1 (by decide)
    · exact absurd h1 (by decide)
    · exact absurd h1 (by decide)
    · subst h2; rw [harch] at hmatch; exact absurd hmatch (by decide)
    · exact absurd h1 (by decide)
  · intro h
    obtain ⟨r, hmem, hmatch⟩ := classify_eq_name _ _ _ h (by decide)
    simp only [catalogLFN, List.mem_cons, List.not_mem_nil, or_false,
      Prod.mk.injEq] at hmem
    rcases hmem with ⟨h1, _⟩ | ⟨h1, _⟩ | ⟨h1, _⟩ | ⟨h1, _⟩ | ⟨h1, _⟩ | ⟨h1, _⟩ | ⟨_, h2⟩
    · exact absurd h1 (by decide)
    · exact absurd h1 (by decide)
    · exact absurd h1 (by decide)
    · exact absurd h1 (by decide)
    · exact absurd h1 (by decide)
    · exact absurd h1 (by decide)
    · subst h2; rw [hreach] at hmatch; exact absurd hmatch (by decide)

/-- C10: a catalog entry that declares no constraints matches every vector
(the conjunction over zero constraints holds vacuously), so the classifier
returns its name for every vector that reaches it and no later entry is ever
selected. -/
theorem c10_empty_rule_catch_all :
    (∀ m : Metrics, matchesRule m ([] : Rule) = true) ∧
    (∀ (m : Metrics) (pre : Catalog) (n : String) (post : Catalog),
        (∀ p ∈ pre, matchesRule m p.2 = false) →
        classify m (pre ++ (n, ([] : Rule)) :: post) = n) :=
  ⟨fun _ => rfl,
   fun m pre n post h => classify_append_first m pre n [] post h rfl⟩

/-- C10 witness: an unconstrained entry selected over a later matching one. -/
theorem c10_witness :
    matchesRule ([("contributors", MVal.num 1)] : Metrics) ([] : Rule) = true ∧
    classify [("contributors", MVal.num 1)]
      ([("incubation", [("contributors", .range (some 3) none)])] ++
        ("catchall", ([] : Rule)) ::
          [("spark", [("contributors", .range none (some 2))])]) = "catchall" :=
  ⟨c10_empty_rule_catch_all.1 [("contributors", MVal.num 1)],
   c10_empty_rule_catch_all.2 [("contributors", MVal.num 1)]
     [("incubation", [("contributors", .range (some 3) none)])] "catchall"
     [("spark", [("contributors", .range none (some 2))])] (by decide)⟩

/- ## Claims about the shard loop -/

/-- C1: the shard loop does not classify failures into the four isolated
markers.  First conjunct: a repository whose git clone really failed (exit
code 128) is still processed as if checkout had succeeded — the observed
exit code is forced to 0 by the trailing "|| true" — so no Checkout Failed
row can ever be produced and the repository is classified from the remote
API instead.  Second conjunct: a repository whose classification script
exits nonzero terminates the whole shard under set -e: no Classification
Error row is recorded for it and the following repository of the shard is
never processed. -/
theorem c1_shard_error_isolation_fails :
    processRepo ⟨"org/a", 128, 0, true, some "Active"⟩ = .ok ⟨"Active", none⟩ ∧
    shardRun [⟨"org/b", 0, 1, true, some "Active"⟩,
              ⟨"org/c", 0, 0, true, some "Stable"⟩] = ([], some 1) :=
  ⟨rfl, rfl⟩

/-- C2: the partition can have a gap.  First conjunct: for a shard whose
single attempted slug has a classification script exiting nonzero (exit 2),
the shard aborts and zero result rows are written — one attempted slug, no
ClassificationResult.  Second conjunct: the analogous run whose script exits
0 without producing repo.json does write exactly the one fallback row, so
the missing row in the first conjunct is the divergence, not an artifact of
the model. -/
theorem c2_partition_gap_on_failure :
    shardRun [⟨"org/r", 0, 2, false, none⟩] = ([], some 2) ∧
    shardRun [⟨"org/r", 0, 0, false, none⟩] =
      ([⟨"Classification Error",
         some "Classification script did not produce output file"⟩], none) :=
  ⟨rfl, rfl⟩

/- ## Claims about the report pipeline -/

/-- C3 counterexample: two non-error rows, repository a with phase Stable
and repository b with phase Active.  The claimed order (phase name first,
then repository) would put the Active row first; the pipeline instead puts
repository a's Stable row first, from either input order, so within-class
ordering is not phase-major.  The last conjunct checks the two transformed
rows really differ. -/
theorem c3_sort_not_phase_major :
    reportSortPipeline
        [rowLine "org".toList "a".toList "Stable".toList,
         rowLine "org".toList "b".toList "Active".toList] =
      [(awkClassify (rowLine "org".toList "a".toList "Stable".toList)).drop 1,
       (awkClassify (rowLine "org".toList "b".toList "Active".toList)).drop 1] ∧
    reportSortPipeline
        [rowLine "org".toList "b".toList "Active".toList,
         rowLine "org".toList "a".toList "Stable".toList] =
      [(awkClassify (rowLine "org".toList "a".toList "Stable".toList)).drop 1,
       (awkClassify (rowLine "org".toList "b".toList "Active".toList)).drop 1] ∧
    (awkClassify (rowLine "org".toList "a".toList "Stable".toList)).drop 1 ≠
      (awkClassify (rowLine "org".toList "b".toList "Active".toList)).drop 1 := by
  refine ⟨rfl, rfl, by decide⟩

/-- C3 (amended): the pipeline output is the transformed rows sorted by the
comparator of sort -t'|' -k1,1 -k2,2 -k3,3; every row whose (trimmed) phase
begins with an error-class marker — those rows get the class digit 0 —
appears before every row that does not (digit 1); within each class the rows
stand in the byte order of their transformed text, which, the awk rebuild
having replaced the pipe separators by spaces, orders by the repository link
text before the phase, not by phase name first. -/
theorem c3_amended_two_class_sort (org : Line) (pairs : List (Line × Line))
    (horg : noPipe org = true)
    (hp : ∀ rp ∈ pairs, noPipe rp.1 = true ∧ noPipe rp.2 = true) :
    reportSortPipeline (pairs.map fun rp => rowLine org rp.1 rp.2) =
      (sortRows (pairs.map fun rp => awkClassify (rowLine org rp.1 rp.2))).map
        (List.drop 1) ∧
    (sortRows (pairs.map fun rp => awkClassify (rowLine org rp.1 rp.2))).Perm
      (pairs.map fun rp => awkClassify (rowLine org rp.1 rp.2)) ∧
    sortRows (pairs.map fun rp => awkClassify (rowLine org rp.1 rp.2)) =
      (sortRows (pairs.map fun rp => awkClassify (rowLine org rp.1 rp.2))).filter
          (headIs '0') ++
        (sortRows (pairs.map fun rp => awkClassify (rowLine org rp.1 rp.2))).filter
          (headIs '1') ∧
    (sortRows (pairs.map fun rp => awkClassify (rowLine org rp.1 rp.2))).Pairwise
      (fun a b => lineLe a b = true) ∧
    ∀ rp ∈ pairs, awkClassify (rowLine org rp.1 rp.2) =
      (if isErrClass (trimWS rp.2) then '0' else '1') ::
        List.intercalate [' '] [[], linkText org rp.1, trimWS rp.2, []] := by
  refine ⟨?_, sortRows_perm _, ?_, pairwise_sortRows _, ?_⟩
  · unfold reportSortPipeline
    rw [List.map_map]
    rfl
  · refine heads_digit_filter _ (pairwise_sortRows _) ?_
    intro l hl
    have hl' := (sortRows_perm _).mem_iff.mp hl
    obtain ⟨rp, _, hrp⟩ := List.mem_map.mp hl'
    rw [← hrp]
    exact awkClassify_head _
  · intro rp hrp
    exact awkClassify_rowLine org rp.1 rp.2 horg (hp rp hrp).1 (hp rp hrp).2

/-- C3 witness: the amended theorem applied to one error-class and one
healthy row. -/
theorem c3_amended_witness :
    reportSortPipeline
        ([(("a".toList : Line), ("Stable".toList : Line)),
          (("b".toList : Line), ("Checkout Failed".toList : Line))].map
            fun rp => rowLine "org".toList rp.1 rp.2) =
      (sortRows
          ([(("a".toList : Line), ("Stable".toList : Line)),
            (("b".toList : Line), ("Checkout Failed".toList : Line))].map
              fun rp => awkClassify (rowLine "org".toList rp.1 rp.2))).map
        (List.drop 1) ∧
    (sortRows
        ([(("a".toList : Line), ("Stable".toList : Line)),
          (("b".toList : Line), ("Checkout Failed".toList : Line))].map
            fun rp => awkClassify (rowLine "org".toList rp.1 rp.2))).Perm
      ([(("a".toList : Line), ("Stable".toList : Line)),
        (("b".toList : Line), ("Checkout Failed".toList : Line))].map
          fun rp => awkClassify (rowLine "org".toList rp.1 rp.2)) ∧
    sortRows
        ([(("a".toList : Line), ("Stable".toList : Line)),
          (("b".toList : Line), ("Checkout Failed".toList : Line))].map
            fun rp => awkClassify (rowLine "org".toList rp.1 rp.2)) =
      (sortRows
          ([(("a".toList : Line), ("Stable".toList : Line)),
            (("b".toList : Line), ("Checkout Failed".toList : Line))].map
              fun rp => awkClassify (rowLine "org".toList rp.1 rp.2))).filter
          (headIs '0') ++
        (sortRows
            ([(("a".toList : Line), ("Stable".toList : Line)),
              (("b".toList : Line), ("Checkout Failed".toList : Line))].map
                fun rp => awkClassify (rowLine "org".toList rp.1 rp.2))).filter
          (headIs '1') ∧
    (sortRows
        ([(("a".toList : Line), ("Stable".toList : Line)),
          (("b".toList : Line), ("Checkout Failed".toList : Line))].map
            fun rp => awkClassify (rowLine "org".toList rp.1 rp.2))).Pairwise
      (fun a b => lineLe a b = true) ∧
    ∀ rp ∈ [(("a".toList : Line), ("Stable".toList : Line)),
            (("b".toList : Line), ("Checkout Failed".toList : Line))],
      awkClassify (rowLine "org".toList rp.1 rp.2) =
        (if isErrClass (trimWS rp.2) then '0' else '1') ::
          List.intercalate [' '] [[], linkText "org".toList rp.1, trimWS rp.2, []] :=
  c3_amended_two_class_sort "org".toList
    [(("a".toList : Line), ("Stable".toList : Line)),
     (("b".toList : Line), ("Checkout Failed".toList : Line))]
    (by decide) (by decide)

/-- C4 counterexample: the rendered report embeds the invocation-time
output of date -u in its header, so rendering the very same partition set at
two different times yields different bytes — the rendering is not idempotent
across re-runs. -/
theorem c4_report_embeds_generation_time :
    buildReport "Wed Jun 11 09:00:00 UTC 2025".toList
        "https://example.test/run/1".toList
        (some [⟨"org--repo".toList, some "Active".toList, none⟩]) ≠
      buildReport "Wed Jun 18 09:00:00 UTC 2025".toList
        "https://example.test/run/1".toList
        (some [⟨"org--repo".toList, some "Active".toList, none⟩]) := by
  decide

/-- C4 (amended): apart from the header — whose third and fourth lines embed
the generation timestamp and the run reference — rendering is a pure
function of the partition set: for the same artifacts, everything from the
sixth line on (all organization sections and their tables) is byte-identical
whatever the timestamp and run reference are. -/
theorem c4_deterministic_below_header (d₁ r₁ d₂ r₂ : Line)
    (a : Option (List ArtifactFile)) :
    (buildReport d₁ r₁ a).drop 5 = (buildReport d₂ r₂ a).drop 5 := by
  cases a with
  | none => rfl
  | some files =>
    unfold buildReport
    by_cases h : buildRows files = []
    · simp [h]
    · simp [h]

end GovAuto
